import Mathlib

/-
Verification of the illumioapi label-group client (labelgroups.go) against
its natural-language specification.  The Go source is shallowly embedded:
pure functions become Lean functions, the PCE receiver becomes an explicit
state value, and the unbounded `for len(moreSGs) > 0` loop of
ExpandLabelGroup becomes a fuel-indexed function returning `Option`
(`none` means the loop has not exited within the given fuel; divergence of
the Go loop is `∀ fuel, … = none`).  Go maps are embedded as association
lists where the most recent insertion sits at the head, so
lookup-first-match gives Go's overwrite semantics, and a read on a missing
key yields the zero value of the element type, as in Go.  Go string
helpers are embedded at the character-list level; for the ASCII strings
these claims involve, Go's byte indexing and character indexing agree.
-/

namespace Illumio

/-- Label is declared elsewhere in the repository; ExpandLabelGroup reads
only its `Href` field (per the spec, terminal labels are Entity
References), so the embedding keeps just that field. -/
structure Label where
  Href : String
deriving DecidableEq, Repr

/-- SubGroups as in labelgroups.go: an href and a name. -/
structure SubGroups where
  Href : String
  Name : String
deriving DecidableEq, Repr

/-- LabelGroup as in labelgroups.go.  `Option` embeds Go's pointer fields
(`*[]Label`, `*[]SubGroups`); the fields no claim's code reads
(Description, Usage, ExternalDataReference, ExternalDataSet) are
omitted. -/
structure LabelGroup where
  Href : String
  Name : String
  Key : String
  Labels : Option (List Label)
  SubGroups : Option (List SubGroups)
deriving DecidableEq, Repr

/-- The zero value of the Go LabelGroup struct, returned by a map read on
a missing key. -/
def LabelGroup.zero : LabelGroup :=
  { Href := "", Name := "", Key := "", Labels := none, SubGroups := none }

/-- PtrToVal (declared elsewhere in the repository): dereference a
pointer, giving the zero value when the pointer is nil.  For slice
pointers the zero value is the empty slice. -/
def PtrToVal {α : Type} (ptr : Option (List α)) : List α :=
  ptr.getD []

/-- The Go map `map[string]LabelGroup`, embedded as an association list
with the most recent insertion first. -/
abbrev Table : Type := List (String × LabelGroup)

/-- Association-list lookup: the first (most recently inserted) match
wins, matching Go map overwrite semantics. -/
def tblLookup : Table → String → Option LabelGroup
  | [], _ => none
  | (k, v) :: rest, h => if k = h then some v else tblLookup rest h

/-- Go map read `p.LabelGroups[href]`: zero value on a missing key. -/
def mapGet (t : Table) (href : String) : LabelGroup :=
  (tblLookup t href).getD LabelGroup.zero

/-- expandLabelGroup (labelgroups.go lines 114-122): collect the hrefs of
the group's direct labels and the hrefs of its direct subgroups. -/
def expandLabelGroup (t : Table) (href : String) : List String × List String :=
  ((PtrToVal (mapGet t href).Labels).map Label.Href,
   (PtrToVal (mapGet t href).SubGroups).map SubGroups.Href)

/-- The `for _, newSG := range moreSGs` body inside ExpandLabelGroup
(lines 94-98): Go evaluates the range expression once, so the iteration
runs over that snapshot while `l, moreSGs = p.expandLabelGroup(newSG)`
rebinds the live `moreSGs`; after the loop only the subgroups of the last
snapshot element remain in `moreSGs`.  Arguments: accumulated labelHrefs,
live moreSGs, remaining snapshot. -/
def rangeMoreSGs (t : Table) (acc : List String) (m : List String) :
    List String → List String × List String
  | [] => (acc, m)
  | newSG :: rest =>
    let lm := expandLabelGroup t newSG
    rangeMoreSGs t (acc ++ lm.1) lm.2 rest

/-- The `for len(moreSGs) > 0` loop of ExpandLabelGroup (lines 93-99),
indexed by fuel: `none` means the loop has not exited within `fuel`
iterations. -/
def whileMoreSGs (t : Table) : Nat → List String → List String → Option (List String)
  | 0, acc, m => if m.isEmpty then some acc else none
  | Nat.succ fuel, acc, m =>
    if m.isEmpty then some acc
    else
      let r := rangeMoreSGs t acc m m
      whileMoreSGs t fuel r.1 r.2

/-- The `for _, sg := range …SubGroups` loop of ExpandLabelGroup (lines
87-100): for each direct subgroup of the root, expand it, append its
labels, and drain `moreSGs` with the while loop before moving on. -/
def forSubGroups (t : Table) (fuel : Nat) : List String → List String → Option (List String)
  | acc, [] => some acc
  | acc, sg :: rest =>
    let lm := expandLabelGroup t sg
    match whileMoreSGs t fuel (acc ++ lm.1) lm.2 with
    | none => none
    | some acc2 => forSubGroups t fuel acc2 rest

/-- The de-dupe step of ExpandLabelGroup (lines 103-111): Go inserts every
accumulated href into a `map[string]bool` and returns its keys.  Go map
iteration order is unspecified (the spec says callers must not depend on
the sequence), so only the underlying set and the absence of duplicates
are meaningful; `List.dedup` is one faithful linearisation. -/
def dedupeGo (l : List String) : List String :=
  l.dedup

/-- ExpandLabelGroup (labelgroups.go lines 80-112), fuel-indexed.  The
result is `some` of the deduplicated accumulated label hrefs when every
while loop exits within `fuel` iterations, `none` otherwise. -/
def ExpandLabelGroup (t : Table) (fuel : Nat) (href : String) : Option (List String) :=
  let a := (expandLabelGroup t href).1
  (forSubGroups t fuel a ((PtrToVal (mapGet t href).SubGroups).map SubGroups.Href)).map dedupeGo

/-- strings.ToLower from the Go standard library, embedded per character.
Go lowercases by Unicode rules; for the ASCII status strings involved
here `Char.toLower` agrees with it. -/
def toLowerGo (s : String) : String :=
  String.mk (s.data.map Char.toLower)

/-- strings.TrimSuffix: remove one occurrence of `suf` from the end of
`s` when present, else return `s` unchanged. -/
def trimSuffixGo (s suf : String) : String :=
  if suf.data.isSuffixOf s.data then
    String.mk (s.data.take (s.data.length - suf.data.length))
  else s

/-- strings.TrimPrefix: remove one occurrence of `pre` from the start of
`s` when present, else return `s` unchanged. -/
def trimStartGo (s pre : String) : String :=
  if pre.data.isPrefixOf s.data then String.mk (s.data.drop pre.data.length) else s

/-- The PCE receiver, restricted to the fields the claims' code touches:
the label-group slice, the lookup table, and the FQDN. -/
structure PCE where
  LabelGroupsSlice : List LabelGroup
  LabelGroups : Table
  FQDN : String
deriving DecidableEq, Repr

/-- The body of the `for _, lg := range p.LabelGroupsSlice` loop of
GetLabelGroups (lines 53-57): three map assignments, keyed by href, by
name, and by key+name.  Most recent insertion first. -/
def tblInsert3 (t : Table) (lg : LabelGroup) : Table :=
  (lg.Key ++ lg.Name, lg) :: (lg.Name, lg) :: (lg.Href, lg) :: t

/-- Lines 52-57 of GetLabelGroups: `p.LabelGroups = make(...)` followed by
the insertion loop over the slice. -/
def buildTable (slice : List LabelGroup) : Table :=
  slice.foldl tblInsert3 []

/-- Modelled from the spec: GetCollection is declared elsewhere in the
repository.  The spec describes it as an HTTP collection call that may
fail (validation, transport, protocol error) and that deserialises the
response into the caller-supplied slice.  It is modelled as an arbitrary
outcome function of the async flag and the current value of the output
slice, returning the error (if any) and the new value of the slice; a
call that fails before deserialising leaves the slice unchanged. -/
abbrev GetCollectionModel := Bool → List LabelGroup → Option String × List LabelGroup

/-- GetLabelGroups (labelgroups.go lines 40-59).  Returns the updated PCE
state, the error result, and an instrumentation flag recording whether
any GetCollection call (network I/O) was made.  Mirrors the source: the
status is lowercased and validated before any call; the sync call runs
first; if the slice reaches 500 entries the slice is reset to nil and the
call is re-run with async; the lookup table is then rebuilt from the
slice with three keys per group, and the last error is returned. -/
def GetLabelGroups (gc : GetCollectionModel) (p : PCE) (pStatus : String) :
    PCE × Option String × Bool :=
  let ps := toLowerGo pStatus
  if ps ≠ "active" ∧ ps ≠ "draft" then (p, some "invalid pStatus", false)
  else
    let r1 := gc false p.LabelGroupsSlice
    let p1 : PCE := { p with LabelGroupsSlice := r1.2 }
    let step2 : PCE × Option String :=
      if 500 ≤ p1.LabelGroupsSlice.length then
        let r2 := gc true []
        ({ p1 with LabelGroupsSlice := r2.2 }, r2.1)
      else (p1, r1.1)
    ({ step2.1 with LabelGroups := buildTable step2.1.LabelGroupsSlice }, step2.2, true)

/-- The `for api.StatusCode == 429` loop of httpReq (lines 383-393),
with httpSetup abstracted as an oracle giving the status code of each
successive call (`oracle 0` is the initial call, `oracle n` the n-th
retry).  Result: final status code, whether the distinguished rate-limit
error was returned, and how many sleep-then-retry cycles ran.  The loop
is bounded by the source's own `retry > 6` guard, so it is total. -/
def loop429 (oracle : Nat → Nat) (retry api sleeps : Nat) : Nat × Bool × Nat :=
  if api ≠ 429 then (api, false, sleeps)
  else if h : retry > 6 then (api, true, sleeps)
  else loop429 oracle (retry + 1) (oracle (retry + 1)) (sleeps + 1)
termination_by 7 - retry
decreasing_by omega

/-- httpReq (labelgroups.go lines 376-396) under the status-code oracle:
make the initial call, then run the 429 retry loop from `retry = 0`. -/
def httpReq (oracle : Nat → Nat) : Nat × Bool × Nat :=
  loop429 oracle 0 (oracle 0) 0

/-- cleanFQDN (labelgroups.go lines 399-405): strip one trailing slash,
then one leading "https://", storing the result back into p.FQDN and
returning it. -/
def cleanFQDN (p : PCE) : PCE × String :=
  let f1 := trimSuffixGo p.FQDN "/"
  let f2 := trimStartGo f1 "https://"
  ({ p with FQDN := f2 }, f2)

/-- A two-group lookup table whose subgroup references form the cycle
A → B → A, with one terminal label on each group (spec's cycle test). -/
def tAB : Table :=
  [("A", { Href := "A", Name := "groupA", Key := "", Labels := some [⟨"la"⟩],
           SubGroups := some [⟨"B", "groupB"⟩] }),
   ("B", { Href := "B", Name := "groupB", Key := "", Labels := some [⟨"lb"⟩],
           SubGroups := some [⟨"A", "groupA"⟩] })]

/-- A nested lookup table P → C → {D, E}, D → F, where F holds the
terminal label "x": the shape on which the overwritten `moreSGs` queue
drops F. -/
def tC2 : Table :=
  [("P", { Href := "P", Name := "p", Key := "", Labels := some [⟨"lp"⟩],
           SubGroups := some [⟨"C", "c"⟩] }),
   ("C", { Href := "C", Name := "c", Key := "", Labels := some [⟨"lc"⟩],
           SubGroups := some [⟨"D", "d"⟩, ⟨"E", "e"⟩] }),
   ("D", { Href := "D", Name := "d", Key := "", Labels := some [⟨"ld"⟩],
           SubGroups := some [⟨"F", "f"⟩] }),
   ("E", { Href := "E", Name := "e", Key := "", Labels := some [⟨"le"⟩],
           SubGroups := none }),
   ("F", { Href := "F", Name := "f", Key := "", Labels := some [⟨"x"⟩],
           SubGroups := none })]

/-- A label group used for the C4 counterexample: the group already in
the table before the failing call. -/
def gBase : LabelGroup :=
  { Href := "/old", Name := "old", Key := "k", Labels := none, SubGroups := none }

/-- A label group returned 500 times by the sync collection call of the
C4 counterexample, forcing the async re-run. -/
def gNew : LabelGroup :=
  { Href := "/new", Name := "new", Key := "k", Labels := none, SubGroups := none }

/-- GetCollection behaviour for the C4 counterexample: the sync call
succeeds with 500 items (triggering the async re-run), the async call
fails with a transport error without touching the slice. -/
def gcC4 : GetCollectionModel :=
  fun async s => if async then (some "transport error", s) else (none, List.replicate 500 gNew)

/-- PCE state before the C4 counterexample call: a table populated by an
earlier successful collection of gBase. -/
def pC4 : PCE :=
  { LabelGroupsSlice := [gBase], LabelGroups := buildTable [gBase], FQDN := "" }

/-- A label group whose Href collides with g2's Name (C5). -/
def g1 : LabelGroup :=
  { Href := "/x", Name := "n1", Key := "k", Labels := none, SubGroups := none }

/-- A label group whose Name equals g1's Href (C5). -/
def g2 : LabelGroup :=
  { Href := "/y", Name := "/x", Key := "k", Labels := none, SubGroups := none }

/-- GetCollection behaviour for the C5 counterexample: one successful
sync call returning the colliding pair. -/
def gcC5 : GetCollectionModel :=
  fun _ _ => (none, [g1, g2])

/-- The empty PCE state. -/
def pEmpty : PCE :=
  { LabelGroupsSlice := [], LabelGroups := [], FQDN := "" }

/-- A collision-free label group for the C5 and C9 witnesses. -/
def gW : LabelGroup :=
  { Href := "/w", Name := "wname", Key := "wkey", Labels := none, SubGroups := none }

/-- GetCollection behaviour for the C5 and C9 witnesses: one successful
sync call returning gW. -/
def gcW : GetCollectionModel :=
  fun _ _ => (none, [gW])

/-- A label group with duplicated direct labels and an empty subgroup
list (C6 and C7 witnesses). -/
def lgW : LabelGroup :=
  { Href := "W", Name := "w", Key := "", Labels := some [⟨"l1"⟩, ⟨"l1"⟩, ⟨"l2"⟩],
    SubGroups := some [] }

/-- One-entry lookup table holding lgW. -/
def tW : Table := [("W", lgW)]

/-- PCE state whose FQDN ends in a doubled slash (C10 counterexample). -/
def pC10 : PCE :=
  { LabelGroupsSlice := [], LabelGroups := [], FQDN := "host//" }

/-- Every successful association-list lookup comes from an entry of the
list. -/
theorem tblLookup_mem : ∀ {t : Table} {k : String} {v : LabelGroup},
    tblLookup t k = some v → (k, v) ∈ t := by
  intro t
  induction t with
  | nil => intro k v h; exact absurd h (by simp [tblLookup])
  | cons kv rest ih =>
    intro k v h
    obtain ⟨k', v'⟩ := kv
    simp only [tblLookup] at h
    by_cases hk : k' = k
    · rw [if_pos hk] at h
      obtain rfl : v' = v := Option.some.inj h
      subst hk
      exact List.mem_cons_self _ _
    · rw [if_neg hk] at h
      exact List.mem_cons_of_mem _ (ih h)

/-- Every entry of the table built by the GetLabelGroups insertion loop
is keyed by the href, the name, or the key+name of a group of the slice,
and its value is that group. -/
theorem mem_foldl_tblInsert3 : ∀ (slice : List LabelGroup) (t0 : Table)
    (kv : String × LabelGroup), kv ∈ slice.foldl tblInsert3 t0 →
    kv ∈ t0 ∨ (kv.2 ∈ slice ∧
      (kv.1 = kv.2.Href ∨ kv.1 = kv.2.Name ∨ kv.1 = kv.2.Key ++ kv.2.Name)) := by
  intro slice
  induction slice with
  | nil => intro t0 kv h; exact Or.inl h
  | cons lg rest ih =>
    intro t0 kv h
    rw [List.foldl_cons] at h
    rcases ih (tblInsert3 t0 lg) kv h with h' | ⟨hm, hs⟩
    · simp only [tblInsert3, List.mem_cons] at h'
      rcases h' with rfl | rfl | rfl | h4
      · exact Or.inr ⟨List.mem_cons_self _ _, Or.inr (Or.inr rfl)⟩
      · exact Or.inr ⟨List.mem_cons_self _ _, Or.inr (Or.inl rfl)⟩
      · exact Or.inr ⟨List.mem_cons_self _ _, Or.inl rfl⟩
      · exact Or.inl h4
    · exact Or.inr ⟨List.mem_cons_of_mem _ hm, hs⟩

/-- Once the status validates, GetLabelGroups always ends by rebuilding
the lookup table from whatever the final slice holds, whether or not an
error is being returned. -/
theorem getLabelGroups_rebuilds (gc : GetCollectionModel) (p : PCE) (s : String)
    (h : toLowerGo s = "active" ∨ toLowerGo s = "draft") :
    (GetLabelGroups gc p s).1.LabelGroups =
      buildTable (GetLabelGroups gc p s).1.LabelGroupsSlice := by
  unfold GetLabelGroups
  rw [if_neg (by rcases h with h | h <;> simp [h])]

/-- One unfolding of the while loop from queue state ["A"] of the cyclic
table: it appends A's label and moves to queue state ["B"]. -/
theorem whileStepA (n : Nat) (acc : List String) :
    whileMoreSGs tAB (n + 1) acc ["A"] = whileMoreSGs tAB n (acc ++ ["la"]) ["B"] := rfl

/-- One unfolding of the while loop from queue state ["B"] of the cyclic
table: it appends B's label and moves to queue state ["A"]. -/
theorem whileStepB (n : Nat) (acc : List String) :
    whileMoreSGs tAB (n + 1) acc ["B"] = whileMoreSGs tAB n (acc ++ ["lb"]) ["A"] := rfl

/-- On the cyclic table the while loop's queue alternates between ["A"]
and ["B"] and never empties, so no amount of fuel makes it exit. -/
theorem whileAB (fuel : Nat) : ∀ acc : List String,
    whileMoreSGs tAB fuel acc ["A"] = none ∧ whileMoreSGs tAB fuel acc ["B"] = none := by
  induction fuel with
  | zero => intro acc; exact ⟨rfl, rfl⟩
  | succ n ih =>
    intro acc
    exact ⟨by rw [whileStepA]; exact (ih (acc ++ ["la"])).2,
           by rw [whileStepB]; exact (ih (acc ++ ["lb"])).1⟩

/-- C1: for the lookup table whose subgroups form the cycle A → B → A,
the claim says ExpandLabelGroup("A") terminates and returns the union of
the terminal labels of A and B.  In the code the `for len(moreSGs) > 0`
loop's queue alternates between ["A"] and ["B"] forever, so the call
never returns: at every fuel the embedded loop is still running. -/
theorem expand_cycle_never_returns :
    (PtrToVal (mapGet tAB "A").SubGroups).map SubGroups.Href = ["B"] ∧
    (PtrToVal (mapGet tAB "B").SubGroups).map SubGroups.Href = ["A"] ∧
    ∀ fuel : Nat, ExpandLabelGroup tAB fuel "A" = none := by
  refine ⟨rfl, rfl, fun fuel => ?_⟩
  show (forSubGroups tAB fuel ["la"] ["B"]).map dedupeGo = none
  show (match whileMoreSGs tAB fuel (["la"] ++ ["lb"]) ["A"] with
        | none => none
        | some acc2 => forSubGroups tAB fuel acc2 []).map dedupeGo = none
  rw [(whileAB fuel (["la"] ++ ["lb"])).1]
  rfl

/-- C2: the claim says ExpandLabelGroup(parent) ⊇ ExpandLabelGroup(child)
for every subgroup child of parent.  On tC2, C is a subgroup of P, yet
expanding P misses the label "x" that expanding C finds: while draining
C's queue [D, E], the assignment `l, moreSGs = p.expandLabelGroup(newSG)`
overwrites the queue, so D's subgroup F (which holds "x") is dropped when
E is processed. -/
theorem expand_drops_nested_subgroup :
    (PtrToVal (mapGet tC2 "P").SubGroups).map SubGroups.Href = ["C"] ∧
    ExpandLabelGroup tC2 50 "P" = some ["lp", "lc", "ld", "le"] ∧
    ExpandLabelGroup tC2 50 "C" = some ["lc", "ld", "x", "le"] ∧
    "x" ∈ ["lc", "ld", "x", "le"] ∧ "x" ∉ ["lp", "lc", "ld", "le"] := by
  decide

/-- C3: the claim says httpReq retries a 429 at most 6 times and returns
the distinguished rate-limit error after exactly 6 failed retries.  The
`retry > 6` guard actually allows 7 sleep-then-retry cycles (8 calls in
total): with every call answering 429 the error comes only after 7
retries, and with the 7th retry succeeding the call succeeds after 7
sleeps instead of failing after 6. -/
theorem httpReq_seven_retries :
    httpReq (fun _ => 429) = (429, true, 7) ∧
    httpReq (fun n => if n ≤ 6 then 429 else 200) = (200, false, 7) := by
  constructor <;> simp [httpReq, loop429]

/-- C4 (amended): once the status validates, GetLabelGroups rebuilds the
lookup table from the final slice regardless of whether the collection
call failed; only a validation failure leaves the previous table (and the
whole PCE state) unchanged. -/
theorem getLabelGroups_rebuild_unconditional (gc : GetCollectionModel) (p : PCE) (s : String) :
    ((toLowerGo s = "active" ∨ toLowerGo s = "draft") →
      (GetLabelGroups gc p s).1.LabelGroups =
        buildTable (GetLabelGroups gc p s).1.LabelGroupsSlice) ∧
    ((toLowerGo s ≠ "active" ∧ toLowerGo s ≠ "draft") →
      (GetLabelGroups gc p s).1 = p ∧
      (GetLabelGroups gc p s).2.1 = some "invalid pStatus") := by
  constructor
  · exact getLabelGroups_rebuilds gc p s
  · intro h
    unfold GetLabelGroups
    rw [if_pos h]
    exact ⟨rfl, rfl⟩

set_option maxRecDepth 4000 in
/-- C4 (counterexample): the claim says an erroring GetLabelGroups leaves
the previously stored lookup table unchanged.  Here the sync collection
call returns 500 items, the code resets the slice to nil and re-runs with
async, the async call fails with a transport error, and the table is then
rebuilt from the empty slice: the error is returned and the old entry
"/old" is gone. -/
theorem getLabelGroups_error_replaces_table :
    (GetLabelGroups gcC4 pC4 "draft").2.1 = some "transport error" ∧
    tblLookup pC4.LabelGroups "/old" = some gBase ∧
    tblLookup (GetLabelGroups gcC4 pC4 "draft").1.LabelGroups "/old" = none := by
  decide

/-- Witness for the amended C4 theorem at concrete inputs: a validating
call rebuilds the table from the final slice, a non-validating call
leaves the state untouched and reports the invalid status. -/
theorem getLabelGroups_rebuild_unconditional_witness :
    (GetLabelGroups gcW pEmpty "draft").1.LabelGroups =
      buildTable (GetLabelGroups gcW pEmpty "draft").1.LabelGroupsSlice ∧
    (GetLabelGroups gcW pEmpty "staging").1 = pEmpty ∧
    (GetLabelGroups gcW pEmpty "staging").2.1 = some "invalid pStatus" :=
  ⟨(getLabelGroups_rebuild_unconditional gcW pEmpty "draft").1 (Or.inr (by decide)),
   (getLabelGroups_rebuild_unconditional gcW pEmpty "staging").2 (by decide)⟩

/-- C5 (counterexample): the claim says the lookup table never stores a
group under a key that is the href of a different group.  After a
successful GetLabelGroups over [g1, g2], where g2's Name equals g1's
Href "/x", the later name-keyed insertion of g2 overwrites g1's
href-keyed entry: the key "/x" now maps to g2, whose href is "/y". -/
theorem lookupTable_href_collision :
    (GetLabelGroups gcC5 pEmpty "draft").2.1 = none ∧
    g1 ∈ (GetLabelGroups gcC5 pEmpty "draft").1.LabelGroupsSlice ∧
    g1.Href = "/x" ∧
    tblLookup (GetLabelGroups gcC5 pEmpty "draft").1.LabelGroups "/x" = some g2 ∧
    g2.Href ≠ "/x" := by
  decide

/-- C5 (amended): provided no group's Name or Key+Name in the collected
slice equals the Href of any group of the slice, every lookup of a
collected group's href yields a group owning that href. -/
theorem lookupTable_href_owner_no_collision (gc : GetCollectionModel) (p : PCE) (s : String)
    (hvalid : toLowerGo s = "active" ∨ toLowerGo s = "draft")
    (hcoll : ∀ g ∈ (GetLabelGroups gc p s).1.LabelGroupsSlice,
      ∀ g' ∈ (GetLabelGroups gc p s).1.LabelGroupsSlice,
        g'.Name ≠ g.Href ∧ g'.Key ++ g'.Name ≠ g.Href)
    (g : LabelGroup) (hg : g ∈ (GetLabelGroups gc p s).1.LabelGroupsSlice)
    (gr : LabelGroup)
    (hlook : tblLookup (GetLabelGroups gc p s).1.LabelGroups g.Href = some gr) :
    gr.Href = g.Href := by
  rw [getLabelGroups_rebuilds gc p s hvalid] at hlook
  have hmem : (g.Href, gr) ∈ buildTable (GetLabelGroups gc p s).1.LabelGroupsSlice :=
    tblLookup_mem hlook
  rcases mem_foldl_tblInsert3 _ [] _ hmem with h0 | ⟨hgr, hshape⟩
  · exact absurd h0 (List.not_mem_nil _)
  · rcases hshape with h1 | h2 | h3
    · exact h1.symm
    · exact absurd h2.symm (hcoll g hg gr hgr).1
    · exact absurd h3.symm (hcoll g hg gr hgr).2

/-- Witness for the amended C5 theorem at a collision-free slice. -/
theorem lookupTable_href_owner_no_collision_witness :
    gW ∈ (GetLabelGroups gcW pEmpty "draft").1.LabelGroupsSlice ∧
    tblLookup (GetLabelGroups gcW pEmpty "draft").1.LabelGroups gW.Href = some gW ∧
    gW.Href = gW.Href :=
  ⟨by decide, by decide,
   lookupTable_href_owner_no_collision gcW pEmpty "draft" (by decide) (by decide)
     gW (by decide) gW (by decide)⟩

/-- C6: for every root present in the lookup table whose subgroup list is
empty, ExpandLabelGroup returns exactly the root's direct terminal label
references, deduplicated, at any fuel. -/
theorem expand_no_subgroups_direct_labels (t : Table) (fuel : Nat) (href : String)
    (lg : LabelGroup) (hmem : tblLookup t href = some lg)
    (hsub : PtrToVal lg.SubGroups = []) :
    ExpandLabelGroup t fuel href = some ((PtrToVal lg.Labels).map Label.Href).dedup := by
  unfold ExpandLabelGroup expandLabelGroup mapGet
  rw [hmem]
  simp [hsub, forSubGroups, dedupeGo]

/-- Witness for C6: a group with duplicated direct labels and an empty
subgroup list expands to its deduplicated direct labels. -/
theorem expand_no_subgroups_direct_labels_witness :
    tblLookup tW "W" = some lgW ∧ PtrToVal lgW.SubGroups = [] ∧
    ExpandLabelGroup tW 0 "W" = some ((PtrToVal lgW.Labels).map Label.Href).dedup :=
  ⟨by decide, by decide, expand_no_subgroups_direct_labels tW 0 "W" lgW (by decide) (by decide)⟩

/-- C7: whenever ExpandLabelGroup returns, the returned list contains no
terminal label reference more than once. -/
theorem expand_result_nodup (t : Table) (fuel : Nat) (href : String) (out : List String)
    (h : ExpandLabelGroup t fuel href = some out) : out.Nodup := by
  unfold ExpandLabelGroup at h
  rcases Option.map_eq_some'.mp h with ⟨acc, -, hb⟩
  rw [← hb]
  exact List.nodup_dedup acc

/-- Witness for C7 at a group whose direct labels repeat "l1". -/
theorem expand_result_nodup_witness :
    ExpandLabelGroup tW 3 "W" = some ["l1", "l2"] ∧ (["l1", "l2"] : List String).Nodup :=
  ⟨by decide, expand_result_nodup tW 3 "W" ["l1", "l2"] (by decide)⟩

/-- C8: for every Entity Reference absent from the lookup table,
ExpandLabelGroup returns the empty set without error: the zero-valued
group contributes no terminal labels and no subgroups. -/
theorem expand_missing_href_empty (t : Table) (fuel : Nat) (href : String)
    (h : tblLookup t href = none) : ExpandLabelGroup t fuel href = some [] := by
  unfold ExpandLabelGroup expandLabelGroup mapGet
  rw [h]
  simp [PtrToVal, LabelGroup.zero, forSubGroups, dedupeGo]

/-- Witness for C8: an href absent from a non-empty table expands to the
empty list. -/
theorem expand_missing_href_empty_witness :
    tblLookup tW "missing" = none ∧ ExpandLabelGroup tW 2 "missing" = some [] :=
  ⟨by decide, expand_missing_href_empty tW 2 "missing" (by decide)⟩

/-- C9: a pStatus that is not "draft" or "active" up to letter case makes
GetLabelGroups fail with the invalid-status error before any network
call, leaving the state untouched; a pStatus equal to "draft" or
"active" up to case passes validation and the collection call is made. -/
theorem getLabelGroups_status_validation (gc : GetCollectionModel) (p : PCE) (s : String) :
    ((toLowerGo s ≠ "active" ∧ toLowerGo s ≠ "draft") →
      GetLabelGroups gc p s = (p, some "invalid pStatus", false)) ∧
    ((toLowerGo s = "active" ∨ toLowerGo s = "draft") →
      (GetLabelGroups gc p s).2.2 = true) := by
  constructor
  · intro h
    unfold GetLabelGroups
    rw [if_pos h]
  · intro h
    unfold GetLabelGroups
    rw [if_neg (by rcases h with h | h <;> simp [h])]

/-- Witness for C9: "staging" is rejected with no network call, the
upper-case "DRAFT" passes validation. -/
theorem getLabelGroups_status_validation_witness :
    GetLabelGroups gcW pEmpty "staging" = (pEmpty, some "invalid pStatus", false) ∧
    (GetLabelGroups gcW pEmpty "DRAFT").2.2 = true :=
  ⟨(getLabelGroups_status_validation gcW pEmpty "staging").1 (by decide),
   (getLabelGroups_status_validation gcW pEmpty "DRAFT").2 (by decide)⟩

/-- C10 (counterexample): the claim says cleanFQDN is idempotent.  It
strips only one trailing slash per call: "host//" cleans to "host/",
which cleans again to "host", so applying it twice differs from once. -/
theorem cleanFQDN_not_idempotent :
    (cleanFQDN pC10).2 = "host/" ∧
    (cleanFQDN (cleanFQDN pC10).1).2 = "host" ∧
    (cleanFQDN (cleanFQDN pC10).1).2 ≠ (cleanFQDN pC10).2 := by
  decide

/-- C10 (amended): the surviving half of the claim: cleanFQDN's return
value always equals the value it stores back into p.FQDN (the call
mutates the PCE's FQDN field), though it is not idempotent in general. -/
theorem cleanFQDN_returns_stored (p : PCE) :
    (cleanFQDN p).2 = (cleanFQDN p).1.FQDN := rfl

end Illumio
